import Mathlib

/-!
Shallow embedding of the growth-chart repository's algorithmic core:
resident-identifier parsing and age derivation (`src/app/page.tsx`),
growth-table CSV parsing (the API route in `src/unnamed/part_002`), and
the chart geometry of `MetricChart` (`src/unnamed/part_003`), together
with theorems settling the frozen specification claims.

JavaScript numbers that may be non-finite (NaN / Infinity) are modelled
as `Option ℚ` (`none` = non-finite); exact rationals stand in for IEEE
doubles, since no claim depends on rounding.  JavaScript `Date` values
are modelled by their (year, month, day) civil fields.
-/

namespace GrowthChart

/-- A JS number that may be NaN/Infinity: `none` models a non-finite value. -/
abbrev JNum := Option ℚ

/-- A JS `Date`, reduced to the civil fields the source reads
(`getFullYear`, `getMonth`, `getDate`).  We store the month 1-based;
the source's `getMonth()` is 0-based, but it is only ever used in
differences (`onDate.getMonth() - birth.getMonth()`) and in the
re-validation equality, both invariant under the shift. -/
structure JsDate where
  year : Int
  month : Int
  day : Int
deriving DecidableEq, Repr

/-- Gregorian leap-year rule, as used by JS `Date` normalization. -/
def isLeapYear (y : Int) : Bool :=
  (y % 4 == 0 && y % 100 != 0) || (y % 400 == 0)

/-- Days in a month of the proleptic Gregorian calendar. -/
def daysInMonth (y m : Int) : Int :=
  if m = 2 then (if isLeapYear y then 29 else 28)
  else if m = 4 ∨ m = 6 ∨ m = 9 ∨ m = 11 then 30 else 31

/-- Models `new Date(year, mm - 1, dd)` for `mm ∈ [1,12]`, `dd ∈ [1,31]`
(the only way the source calls it, after its range checks): JS
normalizes a day past the end of the month by rolling into the next
month.  Since `dd ≤ 31` and every month has ≥ 28 days, the overflow
`dd - daysInMonth` is at most 3, so at most one month is rolled. -/
def mkBirthDate (year mm dd : Int) : JsDate :=
  let dim := daysInMonth year mm
  if dd ≤ dim then ⟨year, mm, dd⟩
  else if mm = 12 then ⟨year + 1, 1, dd - dim⟩
  else ⟨year, mm + 1, dd - dim⟩

/-- `getAgeMonths` from `src/app/page.tsx`: completed months between
`birth` and `onDate`. -/
def getAgeMonths (birth onDate : JsDate) : Int :=
  let months := (onDate.year - birth.year) * 12 + (onDate.month - birth.month)
  if onDate.day < birth.day then months - 1 else months

/-- `normalizeResidentId` from `src/app/page.tsx`: strip every
non-digit character (`value.replace(/\D/g, "")`), kept as a char list. -/
def normalizeResidentId (value : String) : List Char :=
  value.data.filter Char.isDigit

/-- Base-10 value of a non-empty all-digit character list; models
`Number.parseInt(s, 10)` on the all-digit slices the source feeds it. -/
def digitsVal (l : List Char) : Nat :=
  l.foldl (fun acc c => acc * 10 + (c.toNat - 48)) 0

/-- The `centuryMap` record of `src/app/page.tsx`; a lookup miss
(`!century`) models as `none`. -/
def centuryMap (c : Char) : Option Int :=
  if c = '1' ∨ c = '2' ∨ c = '5' ∨ c = '6' then some 1900
  else if c = '3' ∨ c = '4' ∨ c = '7' ∨ c = '8' then some 2000
  else none

/-- The `AgeInfo` result type of `parseResidentId`. -/
structure AgeInfo where
  birth : JsDate
  ageMonths : Int
deriving DecidableEq, Repr

/-- `parseResidentId` from `src/app/page.tsx`. -/
def parseResidentId (value : String) (referenceDate : JsDate) : Option AgeInfo :=
  let digits := normalizeResidentId value
  if digits.length ≠ 13 then none
  else
    let yy : Int := digitsVal (digits.take 2)
    let mm : Int := digitsVal ((digits.drop 2).take 2)
    let dd : Int := digitsVal ((digits.drop 4).take 2)
    let genderCode : Char := digits.getD 6 ' '
    match centuryMap genderCode with
    | none => none
    | some century =>
      if mm < 1 ∨ 12 < mm ∨ dd < 1 ∨ 31 < dd then none
      else
        let year := century + yy
        let birth := mkBirthDate year mm dd
        if birth.year ≠ year ∨ birth.month ≠ mm ∨ birth.day ≠ dd then none
        else
          let ageMonths := getAgeMonths birth referenceDate
          if ageMonths < 0 then none
          else some ⟨birth, ageMonths⟩

/-- `getSexKey` from `src/app/page.tsx`. -/
def getSexKey (value : String) : Option String :=
  let digits := normalizeResidentId value
  if digits.length < 7 then none
  else
    let genderCode := digits.getD 6 ' '
    if genderCode = '1' ∨ genderCode = '3' ∨ genderCode = '5' ∨ genderCode = '7' then
      some "1"
    else if genderCode = '2' ∨ genderCode = '4' ∨ genderCode = '6' ∨ genderCode = '8' then
      some "2"
    else none

/-- `diffDays` from `src/app/page.tsx`, over the two visits' epoch
timestamps in milliseconds (the source obtains them from the stored ISO
strings via `new Date(v).getTime()`); `Math.round` is half-up rounding,
matched by Mathlib's `round` on ℚ. -/
def diffDays (fromTs toTs : ℚ) : Int :=
  max 1 (round ((toTs - fromTs) / (1000 * 60 * 60 * 24)))

/-- The character class JS `String.prototype.trim` removes (ECMAScript
WhiteSpace + LineTerminator); it includes U+FEFF (ZWNBSP) and U+00A0. -/
def jsIsWhitespace (c : Char) : Bool :=
  c = ' ' ∨ c = '\t' ∨ c = '\n' ∨ c = '\r' ∨ c = '\x0b' ∨ c = '\x0c' ∨
    c = '\u00A0' ∨ c = '\uFEFF'

/-- JS `s.trim()`. -/
def jsTrim (s : String) : String :=
  String.mk (((s.data.dropWhile jsIsWhitespace).reverse.dropWhile jsIsWhitespace).reverse)

/-- Character-level worker for `parseCsvLine` from the growth-table API
route (`src/unnamed/part_002`): walks the line with the accumulated
current cell and the `inQuotes` flag, handling doubled quotes inside a
quoted cell as a literal quote; each finished cell is pushed trimmed. -/
def parseCsvAux : List Char → List Char → Bool → List String
  | [], current, _ => [jsTrim (String.mk current)]
  | '"' :: '"' :: rest, current, true => parseCsvAux rest (current ++ ['"']) true
  | '"' :: rest, current, inQuotes => parseCsvAux rest current (!inQuotes)
  | ',' :: rest, current, inQuotes =>
    if inQuotes then parseCsvAux rest (current ++ [',']) true
    else jsTrim (String.mk current) :: parseCsvAux rest [] false
  | c :: rest, current, inQuotes => parseCsvAux rest (current ++ [c]) inQuotes

/-- `parseCsvLine` from `src/unnamed/part_002`. -/
def parseCsvLine (line : String) : List String :=
  parseCsvAux line.data [] false

/-- `content.split(/\r?\n/)`: split on newlines, consuming an optional
carriage return immediately before each newline. -/
def splitLines : List Char → List (List Char)
  | [] => [[]]
  | '\r' :: '\n' :: rest => [] :: splitLines rest
  | '\n' :: rest => [] :: splitLines rest
  | c :: rest =>
    match splitLines rest with
    | [] => [[c]]
    | l :: ls => (c :: l) :: ls

/-- The line list of `parseGrowthCsv`: split on `\r?\n`, keep lines with
non-blank trim. -/
def csvLines (content : String) : List String :=
  ((splitLines content.data).map String.mk).filter (fun line => (jsTrim line).length > 0)

/-- `value.replace(/^\uFEFF/, "")`, applied to the first top-header cell. -/
def stripBOM (s : String) : String :=
  match s.data with
  | '\uFEFF' :: rest => String.mk rest
  | _ => s

/-- The effective column names of `parseGrowthCsv`: row 1's trimmed value
when non-empty, else row 0's trimmed value at that index (row 0's first
cell with a leading BOM stripped).  Out-of-range lines model JS's
`undefined` subscripts via the empty default, which the code never
reaches on the `lines.length ≥ 3` path it guards. -/
def effectiveColumns (content : String) : List String :=
  let lines := csvLines content
  let headerTop :=
    (parseCsvLine (lines.getD 0 "")).mapIdx fun i v => if i = 0 then stripBOM v else v
  let headerBottom := parseCsvLine (lines.getD 1 "")
  headerTop.mapIdx fun i value =>
    match (headerBottom.get? i).map jsTrim with
    | some b => if b = "" then jsTrim value else b
    | none => jsTrim value

/-- Is `sub` a contiguous substring of `l` (JS `String.prototype.includes`)? -/
def hasSubstr : List Char → List Char → Bool
  | [], sub => sub.isPrefixOf []
  | c :: rest, sub =>
    if sub.isPrefixOf (c :: rest) then true else hasSubstr rest sub

/-- JS `s.includes(sub)`. -/
def containsSubstr (s sub : String) : Bool :=
  hasSubstr s.data sub.data

/-- The regex `/^\d+(st|nd|rd|th)$/i` of the growth-table route: one or
more ASCII digits followed by an ordinal suffix, case-insensitive.
Maximal-munch on the digits is equivalent to the regex since the
suffixes contain no digit. -/
def percentilePattern (s : String) : Bool :=
  let digits := s.data.takeWhile Char.isDigit
  let rest := (s.data.dropWhile Char.isDigit).map Char.toLower
  decide (digits ≠ []) &&
    (rest = ['s', 't'] || rest = ['n', 'd'] || rest = ['r', 'd'] || rest = ['t', 'h'])

/-- JS `Number.parseInt(s, 10)` followed by the route's
`Number.isFinite` check: `none` models NaN.  (An out-of-range cell read
yields `undefined`, whose parse is also NaN; `cellAt` maps it to `""`,
which parses to `none` as well.) -/
def jsParseInt (s : String) : Option Int :=
  let cs := s.data.dropWhile jsIsWhitespace
  let signAndRest : Bool × List Char :=
    match cs with
    | '-' :: rest => (true, rest)
    | '+' :: rest => (false, rest)
    | _ => (false, cs)
  let ds := signAndRest.2.takeWhile Char.isDigit
  if ds = [] then none
  else some ((if signAndRest.1 then -1 else 1) * (digitsVal ds : Int))

/-- Exponent part of a JS float literal: optional sign then digits;
`none` when malformed (then `parseFloat` stops before the `e`). -/
def jsParseExp (cs : List Char) : Option Int :=
  let signAndRest : Bool × List Char :=
    match cs with
    | '-' :: rest => (true, rest)
    | '+' :: rest => (false, rest)
    | _ => (false, cs)
  let ds := signAndRest.2.takeWhile Char.isDigit
  if ds = [] then none
  else some ((if signAndRest.1 then -1 else 1) * (digitsVal ds : Int))

/-- JS `Number.parseFloat(s)` wrapped in the route's
`Number.isFinite(parsed) ? parsed : NaN`: `none` models the NaN stored
for unparsable (or infinite) cells.  Exact rationals stand in for IEEE
doubles; no claim depends on rounding or overflow. -/
def jsParseFloat (s : String) : JNum :=
  let cs := s.data.dropWhile jsIsWhitespace
  let signAndRest : ℚ × List Char :=
    match cs with
    | '-' :: rest => (-1, rest)
    | '+' :: rest => (1, rest)
    | _ => (1, cs)
  let intPart := signAndRest.2.takeWhile Char.isDigit
  let afterInt := signAndRest.2.dropWhile Char.isDigit
  let fracAndRest : List Char × List Char :=
    match afterInt with
    | '.' :: r => (r.takeWhile Char.isDigit, r.dropWhile Char.isDigit)
    | _ => ([], afterInt)
  if intPart = [] ∧ fracAndRest.1 = [] then none
  else
    let mantissa : ℚ :=
      signAndRest.1 *
        ((digitsVal intPart : ℚ) + (digitsVal fracAndRest.1 : ℚ) / 10 ^ fracAndRest.1.length)
    let expVal : Int :=
      match fracAndRest.2 with
      | 'e' :: r => (jsParseExp r).getD 0
      | 'E' :: r => (jsParseExp r).getD 0
      | _ => 0
    some (mantissa * 10 ^ expVal)

/-- Lookup in a JS object / `Map` modelled as an insertion-ordered
association list: the first matching key wins (keys stay distinct under
`recSet`, matching JS semantics). -/
def recGet {α : Type} (k : String) : List (String × α) → Option α
  | [] => none
  | (k2, v2) :: rest => if k2 = k then some v2 else recGet k rest

/-- JS object / `Map` write: overwrite in place when the key exists
(keeping its position, as JS does), else append at the end. -/
def recSet {α : Type} (k : String) (v : α) : List (String × α) → List (String × α)
  | [] => [(k, v)]
  | (k2, v2) :: rest => if k2 = k then (k2, v) :: rest else (k2, v2) :: recSet k v rest

/-- `entry.percentiles[name].push(x)`: append to the array stored under
`k`; a missing key is a no-op here, but the route always pushes to keys
it just created via `Object.fromEntries`. -/
def recPush (k : String) (x : JNum) : List (String × List JNum) → List (String × List JNum)
  | [] => []
  | (k2, v2) :: rest =>
    if k2 = k then (k2, v2 ++ [x]) :: rest else (k2, v2) :: recPush k x rest

/-- `GrowthCurve` of the API route: one sex's parallel age / percentile
arrays. -/
structure GrowthCurve where
  ages : List Int
  percentiles : List (String × List JNum)
deriving DecidableEq, Repr

/-- The route's parse result: percentile labels in column order, and the
per-sex curves in first-seen order. -/
structure GrowthTable where
  percentiles : List String
  bySex : List (String × GrowthCurve)
deriving DecidableEq, Repr

/-- `cells[i]` with JS out-of-range reads collapsing to an unparsable
cell (both `undefined` and `""` parse to NaN). -/
def cellAt (cells : List String) (i : Nat) : String :=
  (cells.get? i).getD ""

/-- `Object.fromEntries(percentileColumns.map(c => [c.name, []]))`:
later duplicate keys overwrite earlier ones (all values empty here). -/
def fromEntriesEmpty (percentileColumns : List (String × Nat)) : List (String × List JNum) :=
  percentileColumns.foldl (fun m c => recSet c.1 ([] : List JNum) m) []

/-- One data-row step of `parseGrowthCsv` (the body of
`lines.slice(2).forEach`): skip the row when the sex or month cell is
not finite, otherwise fetch-or-create the sex's entry, push the age,
and push each percentile column's parsed float (duplicated column names
push into the same array, as in JS). -/
def processRow (sexIndex monthIndex : Nat) (percentileColumns : List (String × Nat))
    (bySex : List (String × GrowthCurve)) (line : String) : List (String × GrowthCurve) :=
  let cells := parseCsvLine line
  match jsParseInt (cellAt cells sexIndex), jsParseInt (cellAt cells monthIndex) with
  | some sexValue, some monthValue =>
    let key := toString sexValue
    let entry := (recGet key bySex).getD ⟨[], fromEntriesEmpty percentileColumns⟩
    let entry2 : GrowthCurve :=
      ⟨entry.ages ++ [monthValue],
        percentileColumns.foldl
          (fun m col => recPush col.1 (jsParseFloat (cellAt cells col.2)) m)
          entry.percentiles⟩
    recSet key entry2 bySex
  | _, _ => bySex

/-- `parseGrowthCsv` from the growth-table API route
(`src/unnamed/part_002`). -/
def parseGrowthCsv (content : String) : GrowthTable :=
  let lines := csvLines content
  if lines.length < 3 then ⟨[], []⟩
  else
    let columns := effectiveColumns content
    match columns.findIdx? (fun name => name = "성별"),
        columns.findIdx? (fun name => containsSubstr name "만나이(개월") with
    | some sexIndex, some monthIndex =>
      let percentileColumns :=
        (columns.mapIdx fun i name => (jsTrim name, i)).filter
          (fun c => percentilePattern c.1)
      ⟨percentileColumns.map (fun c => c.1),
        (lines.drop 2).foldl (processRow sexIndex monthIndex percentileColumns) []⟩
    | _, _ => ⟨[], []⟩

/-- `ReferenceCurve` of `MetricChart` (`src/unnamed/part_003`); point
coordinates may be non-finite. -/
structure RefCurve where
  key : String
  points : List (JNum × JNum)
deriving DecidableEq, Repr

/-- The two injection event categories of `ChartEvent`. -/
inductive EventType
  | growth
  | suppression
deriving DecidableEq, Repr

/-- `ChartEvent` of `MetricChart`; `offset` is the optional horizontal
de-confliction offset in pixels. -/
structure ChartEvent where
  x : ℚ
  label : String
  type : EventType
  offset : Option ℚ
deriving DecidableEq, Repr

/-- The data inputs of the `MetricChart` component (presentation-only
props — metric name, labels, formatter, class — omitted). -/
structure ChartInput where
  values : List JNum
  xValues : Option (List JNum)
  xRange : Option (ℚ × ℚ)
  referenceCurves : List RefCurve
  highlightPoint : Option (JNum × JNum)
  events : List ChartEvent
deriving DecidableEq, Repr

/-- Fixed canvas constants of `MetricChart`. -/
def chartWidth : ℚ := 600

/-- Fixed canvas height of `MetricChart`. -/
def chartHeight : ℚ := 240

/-- Fixed margins of `MetricChart`: (top, right, bottom, left). -/
def chartPadding : ℚ × ℚ × ℚ × ℚ := (18, 24, 36, 52)

/-- The finite visit points of `MetricChart`: pair each value with its
x (the supplied `xValues` entry, else the index) and keep only points
with both coordinates finite. -/
def finitePoints (inp : ChartInput) : List (ℚ × ℚ) :=
  (inp.values.mapIdx fun index value =>
      (match inp.xValues with
        | some xs => (xs.get? index).getD none
        | none => some (index : ℚ),
        value)).filterMap
    (fun p => match p with
      | (some x, some y) => some (x, y)
      | _ => none)

/-- All reference-curve points, flattened. -/
def refPointsOf (inp : ChartInput) : List (JNum × JNum) :=
  inp.referenceCurves.flatMap (fun curve => curve.points)

/-- `hasHighlight`: a highlight point is supplied and both coordinates
are finite. -/
def hasHighlightB (inp : ChartInput) : Bool :=
  match inp.highlightPoint with
  | some (some _, some _) => true
  | _ => false

/-- `allX` of `MetricChart`: visit xs, reference xs, the highlight x and
the event xs, keeping finite values only (event xs are plain numbers in
the embedding). -/
def allX (inp : ChartInput) : List ℚ :=
  (finitePoints inp).map (fun p => p.1) ++
    (refPointsOf inp).filterMap (fun p => p.1) ++
    (match inp.highlightPoint with
      | some p => p.1.toList
      | none => []) ++
    inp.events.map (fun e => e.x)

/-- `allY` of `MetricChart`: visit ys, reference ys and the highlight y,
keeping finite values only. -/
def allY (inp : ChartInput) : List ℚ :=
  (finitePoints inp).map (fun p => p.2) ++
    (refPointsOf inp).filterMap (fun p => p.2) ++
    (match inp.highlightPoint with
      | some p => p.2.toList
      | none => [])

/-- The percentile-curve CSS class ternary of `MetricChart`: the median
label is dominant ("major"), the extreme bounds are secondary ("mid"),
every other label is the base class. -/
def curveClass (key : String) : String :=
  if key = "50th" then "chart-percentile major"
  else if key = "3rd" ∨ key = "97th" then "chart-percentile mid"
  else "chart-percentile"

/-- The structured scene `MetricChart` renders: the effective domains,
the pixel-mapped visit polyline, the clipped and styled percentile
paths, and the rendered event-marker x positions. -/
structure Scene where
  xMin : ℚ
  xMax : ℚ
  yMin : ℚ
  yMax : ℚ
  pathPoints : List (ℚ × ℚ)
  curvePaths : List (String × String × List (ℚ × ℚ))
  eventXs : List ℚ
deriving DecidableEq, Repr

/-- `hasRenderableData` of `MetricChart`: at least one finite visit
point, one reference-curve point, or a finite highlight point. -/
def hasRenderableDataB (inp : ChartInput) : Bool :=
  (finitePoints inp).length > 0 || (refPointsOf inp).length > 0 || hasHighlightB inp

/-- The `curvePaths` construction of `MetricChart`: clip each
reference curve to the active x-domain, drop non-finite points, skip
curves left empty, and attach the label-derived style class. -/
def buildCurvePaths (xMin xMax : ℚ) (xFor yFor : ℚ → ℚ) (curves : List RefCurve) :
    List (String × String × List (ℚ × ℚ)) :=
  curves.filterMap fun curve =>
    let filtered : List (ℚ × ℚ) :=
      curve.points.filterMap fun p =>
        match p with
        | (some x, some y) => if xMin ≤ x ∧ x ≤ xMax then some (x, y) else none
        | _ => none
    if filtered = [] then none
    else some (curve.key, curveClass curve.key,
      filtered.map (fun p => (xFor p.1, yFor p.2)))

/-- The geometry computation of `MetricChart`: `none` is the
empty-state placeholder rendered when there is no renderable data.  JS
`Math.min()`/`Math.max()` of an empty spread yield infinities; that
degenerate branch (reachable only with non-finite-x reference points
and nothing else) is modelled by the `getD 0` default, which no claim
exercises. -/
def metricChart (inp : ChartInput) : Option Scene :=
  let points := finitePoints inp
  if !hasRenderableDataB inp then none
  else
    let aX := allX inp
    let aY := allY inp
    let xMin :=
      match inp.xRange with
      | some r => r.1
      | none => (aX.min?).getD 0
    let xMax0 :=
      match inp.xRange with
      | some r => r.2
      | none => (aX.max?).getD 0
    let xMax := if xMax0 = xMin then xMin + 1 else xMax0
    let min0 := (aY.min?).getD 0
    let max0 := (aY.max?).getD 0
    let range0 := max0 - min0
    let range := if range0 = 0 then 1 else range0
    let pad := range * (18 / 100)
    let yMin := min0 - pad
    let yMax := max0 + pad
    let plotWidth := chartWidth - chartPadding.2.2.2 - chartPadding.2.1
    let plotHeight := chartHeight - chartPadding.1 - chartPadding.2.2.1
    let xFor := fun (value : ℚ) =>
      chartPadding.2.2.2 + ((value - xMin) / (xMax - xMin)) * plotWidth
    let yFor := fun (value : ℚ) =>
      chartPadding.1 + plotHeight * (1 - (value - yMin) / (yMax - yMin))
    some
      { xMin := xMin
        xMax := xMax
        yMin := yMin
        yMax := yMax
        pathPoints := points.map (fun p => (xFor p.1, yFor p.2))
        curvePaths := buildCurvePaths xMin xMax xFor yFor inp.referenceCurves
        eventXs := inp.events.map (fun e => xFor e.x + e.offset.getD 0) }

/-- The visit fields `injectionEvents` reads (`src/app/page.tsx`);
storage and display fields not consumed by the claims are omitted. -/
structure Visit where
  ageMonths : ℚ
  growthInjection : Bool
  suppressionInjection : Bool
deriving DecidableEq, Repr

/-- The per-visit body of `injectionEvents`: up to two events at the
visit's age, and when the visit yields exactly two, offset the first
left and the second right by 8 pixels. -/
def perVisitEvents (visit : Visit) : List ChartEvent :=
  let events :=
    (if visit.growthInjection then
        [{ x := visit.ageMonths, label := "성장주사", type := EventType.growth,
           offset := none }]
      else []) ++
      (if visit.suppressionInjection then
          [{ x := visit.ageMonths, label := "억제주사", type := EventType.suppression,
             offset := none }]
        else [])
  match events with
  | [e1, e2] => [{ e1 with offset := some (-8) }, { e2 with offset := some 8 }]
  | _ => events

/-- `injectionEvents` from `src/app/page.tsx`. -/
def injectionEvents (visits : List Visit) : List ChartEvent :=
  visits.flatMap perVisitEvents

/-- The horizontal offset actually applied when rendering an event
marker: `event.offset ?? 0`. -/
def effOffset (e : ChartEvent) : ℚ :=
  e.offset.getD 0

/-- The de-confliction property C7 asserts of an event list: any two
events that are alone in sharing an x-value carry offsets of opposite
sign and equal (non-zero) magnitude. -/
def sharedPairDeconflicted (es : List ChartEvent) : Prop :=
  ∀ i j : Fin es.length, i ≠ j → (es.get i).x = (es.get j).x →
    (∀ k : Fin es.length, k ≠ i → k ≠ j → (es.get k).x ≠ (es.get i).x) →
    effOffset (es.get i) = -(effOffset (es.get j)) ∧ effOffset (es.get i) ≠ 0

/-- `metricChart` renders the empty-state placeholder exactly when
there is no renderable data; the renderability test never reads
`events`. -/
theorem metricChart_eq_none_iff (inp : ChartInput) :
    metricChart inp = none ↔ hasRenderableDataB inp = false := by
  unfold metricChart
  cases h : hasRenderableDataB inp <;> simp [h]

/-- Every entry of `buildCurvePaths` carries the class derived from its
own label. -/
theorem buildCurvePaths_classes (xMin xMax : ℚ) (xFor yFor : ℚ → ℚ)
    (curves : List RefCurve) :
    ∀ entry ∈ buildCurvePaths xMin xMax xFor yFor curves, entry.2.1 = curveClass entry.1 := by
  intro entry hmem
  unfold buildCurvePaths at hmem
  simp only [List.mem_filterMap] at hmem
  obtain ⟨curve, _, hc⟩ := hmem
  split at hc
  · exact Option.noConfusion hc
  · rw [Option.some.injEq] at hc
    subst hc
    rfl

/-- C8: for every pair of previous/current visit timestamps, the
elapsed-days computation is `max(1, round((to − from) in days))`, and
two visits with the same (noon-normalized) timestamp — i.e. the same
calendar day — yield 1, never 0. -/
theorem diffDays_formula_and_same_day :
    (∀ fromTs toTs : ℚ,
        diffDays fromTs toTs = max 1 (round ((toTs - fromTs) / 86400000))) ∧
    (∀ t : ℚ, diffDays t t = 1) := by
  constructor
  · intro fromTs toTs
    norm_num [diffDays]
  · intro t
    simp [diffDays]

/-- C9: reference-curve styling is a function of the percentile label
alone — the median label "50th" gets the dominant class, the extreme
bounds "3rd"/"97th" the secondary class, every other label the
tertiary class — and every curve path in a rendered scene carries the
class derived from its own label. -/
theorem curveClass_by_label :
    curveClass "50th" = "chart-percentile major" ∧
    curveClass "3rd" = "chart-percentile mid" ∧
    curveClass "97th" = "chart-percentile mid" ∧
    (∀ key : String, key ≠ "50th" → key ≠ "3rd" → key ≠ "97th" →
      curveClass key = "chart-percentile") ∧
    (∀ (inp : ChartInput) (scene : Scene), metricChart inp = some scene →
      ∀ entry ∈ scene.curvePaths, entry.2.1 = curveClass entry.1) := by
  refine ⟨rfl, rfl, rfl, ?_, ?_⟩
  · intro key h1 h2 h3
    simp [curveClass, h1, h2, h3]
  · intro inp scene h entry hmem
    have hr : hasRenderableDataB inp = true := by
      by_contra hfalse
      rw [Bool.not_eq_true, ← metricChart_eq_none_iff, h] at hfalse
      exact Option.noConfusion hfalse
    unfold metricChart at h
    rw [hr] at h
    simp only [Bool.not_true, Bool.false_eq_true, if_false, Option.some.injEq] at h
    subst h
    dsimp only at hmem
    exact buildCurvePaths_classes _ _ _ _ _ entry hmem

/-- C10: event markers never count as renderable data — with no finite
visit point, no reference-curve point and no finite highlight point the
chart is the empty-state placeholder whatever events are supplied, and
changing the events list never changes whether the placeholder is
rendered. -/
theorem metricChart_events_not_renderable :
    (∀ inp : ChartInput, finitePoints inp = [] → refPointsOf inp = [] →
        hasHighlightB inp = false → metricChart inp = none) ∧
    (∀ (inp : ChartInput) (es : List ChartEvent),
        (metricChart { inp with events := es } = none ↔ metricChart inp = none)) := by
  constructor
  · intro inp h1 h2 h3
    rw [metricChart_eq_none_iff]
    simp [hasRenderableDataB, h1, h2, h3]
  · intro inp es
    rw [metricChart_eq_none_iff, metricChart_eq_none_iff]
    have h1 : hasRenderableDataB { inp with events := es } = hasRenderableDataB inp := rfl
    rw [h1]

/-- Witness for C9 at a concrete label: a non-median, non-extreme label
gets the tertiary class. -/
theorem curveClass_by_label_witness :
    curveClass "10th" = "chart-percentile" :=
  curveClass_by_label.2.2.2.1 "10th" (by decide) (by decide) (by decide)

/-- C6: with no explicit x-range, coinciding min/max of the supplied
x-values widen the x-domain maximum to min + 1; coinciding y min/max
are treated as a range of 1, padding the y-domain by 18% of that range
on each end. -/
theorem metricChart_degenerate_domains :
    (∀ (inp : ChartInput) (x : ℚ),
        inp.xRange = none → (allX inp).min? = some x → (allX inp).max? = some x →
        hasRenderableDataB inp = true →
        (metricChart inp).map Scene.xMin = some x ∧
          (metricChart inp).map Scene.xMax = some (x + 1)) ∧
    (∀ (inp : ChartInput) (y : ℚ),
        (allY inp).min? = some y → (allY inp).max? = some y →
        hasRenderableDataB inp = true →
        (metricChart inp).map Scene.yMin = some (y - 18 / 100) ∧
          (metricChart inp).map Scene.yMax = some (y + 18 / 100)) := by
  constructor
  · intro inp x hxr hmin hmax hr
    unfold metricChart
    rw [hr]
    simp only [Bool.not_true, Bool.false_eq_true, if_false, Option.map_some']
    rw [hxr]
    dsimp only
    rw [hmin, hmax]
    simp
  · intro inp y hmin hmax hr
    unfold metricChart
    rw [hr]
    simp only [Bool.not_true, Bool.false_eq_true, if_false, Option.map_some']
    rw [hmin, hmax]
    norm_num

/-- Witness for C6 at a concrete input: a single visit point at (0, 5)
yields x-domain [0, 1] and y-domain [5 − 0.18, 5 + 0.18]. -/
theorem metricChart_degenerate_domains_witness :
    ((metricChart ⟨[some 5], none, none, [], none, []⟩).map Scene.xMin = some 0 ∧
        (metricChart ⟨[some 5], none, none, [], none, []⟩).map Scene.xMax = some (0 + 1)) ∧
      ((metricChart ⟨[some 5], none, none, [], none, []⟩).map Scene.yMin =
          some (5 - 18 / 100) ∧
        (metricChart ⟨[some 5], none, none, [], none, []⟩).map Scene.yMax =
          some (5 + 18 / 100)) :=
  ⟨metricChart_degenerate_domains.1 ⟨[some 5], none, none, [], none, []⟩ 0
      rfl (by decide) (by decide) (by decide),
    metricChart_degenerate_domains.2 ⟨[some 5], none, none, [], none, []⟩ 5
      (by decide) (by decide) (by decide)⟩

/-- The de-confliction property is decidable, so counterexamples can be
checked by evaluation. -/
instance sharedPairDeconflictedDec (es : List ChartEvent) :
    Decidable (sharedPairDeconflicted es) := by
  unfold sharedPairDeconflicted
  infer_instance

/-- C7 counterexample: two events from two different visits with the
same age share an x-value and are the only two at that x, yet neither
receives an offset — the de-confliction claim fails there. -/
theorem injectionEvents_shared_x_cex :
    ¬ sharedPairDeconflicted
        (injectionEvents [⟨10, true, false⟩, ⟨10, false, true⟩]) := by
  decide

/-- C7 amended: when a single visit produces exactly two event markers
(both injection flags set), they share that visit's x and receive the
fixed offsets −8 and +8 — opposite sign, equal magnitude. -/
theorem injectionEvents_same_visit_offsets :
    ∀ visit : Visit, visit.growthInjection = true → visit.suppressionInjection = true →
      perVisitEvents visit =
        [⟨visit.ageMonths, "성장주사", EventType.growth, some (-8)⟩,
          ⟨visit.ageMonths, "억제주사", EventType.suppression, some 8⟩] ∧
      sharedPairDeconflicted (injectionEvents [visit]) := by
  intro visit hg hs
  have hpv : perVisitEvents visit =
      [⟨visit.ageMonths, "성장주사", EventType.growth, some (-8)⟩,
        ⟨visit.ageMonths, "억제주사", EventType.suppression, some 8⟩] := by
    simp [perVisitEvents, hg, hs]
  refine ⟨hpv, ?_⟩
  have hie : injectionEvents [visit] =
      [⟨visit.ageMonths, "성장주사", EventType.growth, some (-8)⟩,
        ⟨visit.ageMonths, "억제주사", EventType.suppression, some 8⟩] := by
    simp [injectionEvents, hpv]
  rw [hie]
  intro i j hij hx honly
  fin_cases i <;> fin_cases j <;> simp_all [effOffset]

/-- Witness for the amended C7 at a concrete visit with both
injections. -/
theorem injectionEvents_same_visit_offsets_witness :
    perVisitEvents ⟨5, true, true⟩ =
        [⟨5, "성장주사", EventType.growth, some (-8)⟩,
          ⟨5, "억제주사", EventType.suppression, some 8⟩] ∧
      sharedPairDeconflicted (injectionEvents [⟨5, true, true⟩]) :=
  injectionEvents_same_visit_offsets ⟨5, true, true⟩ rfl rfl

/-- Witness for C10 at a concrete input: a chart given only an event
marker still renders the placeholder. -/
theorem metricChart_events_not_renderable_witness :
    metricChart
        ⟨[], none, none, [], none,
          [⟨3, "성장주사", EventType.growth, none⟩]⟩ = none :=
  metricChart_events_not_renderable.1
    ⟨[], none, none, [], none, [⟨3, "성장주사", EventType.growth, none⟩]⟩ rfl rfl rfl

/-- The `yy` slice of `parseResidentId` (normalized digits 0–1). -/
def ridYY (value : String) : Int :=
  digitsVal ((normalizeResidentId value).take 2)

/-- The `mm` slice of `parseResidentId` (normalized digits 2–3). -/
def ridMM (value : String) : Int :=
  digitsVal (((normalizeResidentId value).drop 2).take 2)

/-- The `dd` slice of `parseResidentId` (normalized digits 4–5). -/
def ridDD (value : String) : Int :=
  digitsVal (((normalizeResidentId value).drop 4).take 2)

/-- The `genderCode` slice of `parseResidentId` (normalized digit 6). -/
def ridGender (value : String) : Char :=
  (normalizeResidentId value).getD 6 ' '

/-- The re-validation of `parseResidentId` (comparing the constructed
date's fields with the inputs) succeeds exactly when the day fits the
month: JS calendar normalization rolls any overflow into the next
month, which the field comparison detects. -/
theorem mkBirthDate_valid_iff (year mm dd : Int) (hmm1 : 1 ≤ mm) (hmm2 : mm ≤ 12)
    (hdd1 : 1 ≤ dd) (hdd2 : dd ≤ 31) :
    ((mkBirthDate year mm dd).year = year ∧ (mkBirthDate year mm dd).month = mm ∧
        (mkBirthDate year mm dd).day = dd) ↔ dd ≤ daysInMonth year mm := by
  unfold mkBirthDate
  by_cases h : dd ≤ daysInMonth year mm
  · simp [h]
  · rw [if_neg h]
    by_cases h12 : mm = 12
    · rw [if_pos h12]
      simp only [iff_false_intro h, iff_false]
      rintro ⟨hy, -, -⟩
      omega
    · rw [if_neg h12]
      simp only [iff_false_intro h, iff_false]
      rintro ⟨-, hm, -⟩
      omega

/-- C2: an identifier accepted by `parseResidentId` has its birth year
resolved as 1900 + YY for century codes {1,2,5,6} and 2000 + YY for
codes {3,4,7,8}; any other seventh digit makes the parse fail. -/
theorem parseResidentId_century_code :
    (∀ (value : String) (ref : JsDate) (info : AgeInfo),
        parseResidentId value ref = some info →
        ((ridGender value = '1' ∨ ridGender value = '2' ∨ ridGender value = '5' ∨
              ridGender value = '6') ∧
            info.birth.year = 1900 + ridYY value) ∨
          ((ridGender value = '3' ∨ ridGender value = '4' ∨ ridGender value = '7' ∨
              ridGender value = '8') ∧
            info.birth.year = 2000 + ridYY value)) ∧
    (∀ (value : String) (ref : JsDate),
        ridGender value ≠ '1' → ridGender value ≠ '2' → ridGender value ≠ '3' →
        ridGender value ≠ '4' → ridGender value ≠ '5' → ridGender value ≠ '6' →
        ridGender value ≠ '7' → ridGender value ≠ '8' →
        parseResidentId value ref = none) := by
  constructor
  · intro value ref info h
    unfold ridGender ridYY
    simp only [parseResidentId] at h
    split at h
    · exact Option.noConfusion h
    · split at h
      · exact Option.noConfusion h
      · rename_i century heq
        split at h
        · exact Option.noConfusion h
        · split at h
          · exact Option.noConfusion h
          · rename_i hval
            split at h
            · exact Option.noConfusion h
            · rw [Option.some.injEq] at h
              subst h
              push_neg at hval
              unfold centuryMap at heq
              split_ifs at heq with hgc1 hgc2
              · rw [Option.some.injEq] at heq
                subst heq
                exact Or.inl ⟨hgc1, by rw [hval.1]⟩
              · rw [Option.some.injEq] at heq
                subst heq
                exact Or.inr ⟨hgc2, by rw [hval.1]⟩
  · intro value ref h1 h2 h3 h4 h5 h6 h7 h8
    unfold ridGender at h1 h2 h3 h4 h5 h6 h7 h8
    have hga : ¬((normalizeResidentId value).getD 6 ' ' = '1' ∨
        (normalizeResidentId value).getD 6 ' ' = '2' ∨
        (normalizeResidentId value).getD 6 ' ' = '5' ∨
        (normalizeResidentId value).getD 6 ' ' = '6') := by
      rintro (hh | hh | hh | hh)
      · exact h1 hh
      · exact h2 hh
      · exact h5 hh
      · exact h6 hh
    have hgb : ¬((normalizeResidentId value).getD 6 ' ' = '3' ∨
        (normalizeResidentId value).getD 6 ' ' = '4' ∨
        (normalizeResidentId value).getD 6 ' ' = '7' ∨
        (normalizeResidentId value).getD 6 ' ' = '8') := by
      rintro (hh | hh | hh | hh)
      · exact h3 hh
      · exact h4 hh
      · exact h7 hh
      · exact h8 hh
    have hcent : centuryMap ((normalizeResidentId value).getD 6 ' ') = none := by
      unfold centuryMap
      rw [if_neg hga, if_neg hgb]
    simp only [parseResidentId]
    split
    · rfl
    · rw [hcent]

/-- Witness for C2 at a concrete accepted identifier (code 1 → 1900
base). -/
theorem parseResidentId_century_code_witness :
    ((ridGender "9901011234567" = '1' ∨ ridGender "9901011234567" = '2' ∨
          ridGender "9901011234567" = '5' ∨ ridGender "9901011234567" = '6') ∧
        (⟨⟨1999, 1, 1⟩, 305⟩ : AgeInfo).birth.year = 1900 + ridYY "9901011234567") ∨
      ((ridGender "9901011234567" = '3' ∨ ridGender "9901011234567" = '4' ∨
          ridGender "9901011234567" = '7' ∨ ridGender "9901011234567" = '8') ∧
        (⟨⟨1999, 1, 1⟩, 305⟩ : AgeInfo).birth.year = 2000 + ridYY "9901011234567") :=
  parseResidentId_century_code.1 "9901011234567" ⟨2024, 6, 15⟩ ⟨⟨1999, 1, 1⟩, 305⟩
    (by decide)

/-- C3: a month field outside [1,12] or day field outside [1,31] makes
`parseResidentId` fail; a day beyond the month's length (an impossible
calendar date such as Feb 30) fails for every century code; and the
re-validation of the constructed date detects exactly those impossible
dates. -/
theorem parseResidentId_invalid_dates :
    (∀ (value : String) (ref : JsDate),
        (ridMM value < 1 ∨ 12 < ridMM value ∨ ridDD value < 1 ∨ 31 < ridDD value) →
        parseResidentId value ref = none) ∧
    (∀ (value : String) (ref : JsDate) (century : Int),
        centuryMap (ridGender value) = some century →
        daysInMonth (century + ridYY value) (ridMM value) < ridDD value →
        parseResidentId value ref = none) ∧
    (∀ (year mm dd : Int), 1 ≤ mm → mm ≤ 12 → 1 ≤ dd → dd ≤ 31 →
        (((mkBirthDate year mm dd).year = year ∧ (mkBirthDate year mm dd).month = mm ∧
            (mkBirthDate year mm dd).day = dd) ↔ dd ≤ daysInMonth year mm)) := by
  refine ⟨?_, ?_, mkBirthDate_valid_iff⟩
  · intro value ref h
    unfold ridMM ridDD at h
    simp only [parseResidentId]
    split
    · rfl
    · split <;> rfl
  · intro value ref century hcent hday
    unfold ridGender at hcent
    unfold ridYY ridMM ridDD at hday
    simp only [parseResidentId]
    split
    · rfl
    · rw [hcent]
      dsimp only
      by_cases hrange :
          ((digitsVal (((normalizeResidentId value).drop 2).take 2) : Int) < 1 ∨
            12 < (digitsVal (((normalizeResidentId value).drop 2).take 2) : Int) ∨
            (digitsVal (((normalizeResidentId value).drop 4).take 2) : Int) < 1 ∨
            31 < (digitsVal (((normalizeResidentId value).drop 4).take 2) : Int))
      · rw [if_pos hrange]
      · rw [if_neg hrange]
        push_neg at hrange
        rw [if_pos]
        by_contra hno
        push_neg at hno
        have hvalid :=
          (mkBirthDate_valid_iff (century + digitsVal ((normalizeResidentId value).take 2))
              (digitsVal (((normalizeResidentId value).drop 2).take 2))
              (digitsVal (((normalizeResidentId value).drop 4).take 2))
              hrange.1 hrange.2.1 hrange.2.2.1 hrange.2.2.2).mp
            ⟨hno.1, hno.2.1, hno.2.2⟩
        omega

/-- Witness for C3: the impossible date Feb 30 (identifier digits
000230, century code 1 → year 1900) is rejected, the range check
rejects month 13, and the validation equivalence holds at 1900-02-28. -/
theorem parseResidentId_invalid_dates_witness :
    parseResidentId "0013011234567" ⟨2024, 6, 15⟩ = none ∧
      parseResidentId "0002301234567" ⟨2024, 6, 15⟩ = none ∧
      (((mkBirthDate 1900 2 28).year = 1900 ∧ (mkBirthDate 1900 2 28).month = 2 ∧
          (mkBirthDate 1900 2 28).day = 28) ↔ (28 : Int) ≤ daysInMonth 1900 2) :=
  ⟨parseResidentId_invalid_dates.1 "0013011234567" ⟨2024, 6, 15⟩ (by decide),
    parseResidentId_invalid_dates.2.1 "0002301234567" ⟨2024, 6, 15⟩ 1900 (by decide)
      (by decide),
    parseResidentId_invalid_dates.2.2 1900 2 28 (by decide) (by decide) (by decide)
      (by decide)⟩

/-- C1: whenever the 13-digit, century-code, range and calendar-date
checks pass, `parseResidentId` returns age-in-months
(refYear − birthYear)·12 + (refMonth − birthMonth), minus 1 when the
reference day-of-month is below the birth day, and `none` when that
value is negative; in particular any identifier whose digits are
9901011 followed by six digits yields 305 months at 2024-06-15. -/
theorem parseResidentId_age_formula :
    (∀ (value : String) (ref : JsDate) (century : Int),
        (normalizeResidentId value).length = 13 →
        centuryMap (ridGender value) = some century →
        1 ≤ ridMM value → ridMM value ≤ 12 → 1 ≤ ridDD value → ridDD value ≤ 31 →
        ridDD value ≤ daysInMonth (century + ridYY value) (ridMM value) →
        parseResidentId value ref =
          (if (ref.year - (century + ridYY value)) * 12 + (ref.month - ridMM value) -
                (if ref.day < ridDD value then 1 else 0) < 0 then
            none
          else
            some ⟨⟨century + ridYY value, ridMM value, ridDD value⟩,
              (ref.year - (century + ridYY value)) * 12 + (ref.month - ridMM value) -
                (if ref.day < ridDD value then 1 else 0)⟩)) ∧
    (∀ rest : List Char, (∀ c ∈ rest, c.isDigit = true) → rest.length = 6 →
        parseResidentId
            (String.mk ('9' :: '9' :: '0' :: '1' :: '0' :: '1' :: '1' :: rest))
            ⟨2024, 6, 15⟩ =
          some ⟨⟨1999, 1, 1⟩, 305⟩) := by
  have main : ∀ (value : String) (ref : JsDate) (century : Int),
      (normalizeResidentId value).length = 13 →
      centuryMap (ridGender value) = some century →
      1 ≤ ridMM value → ridMM value ≤ 12 → 1 ≤ ridDD value → ridDD value ≤ 31 →
      ridDD value ≤ daysInMonth (century + ridYY value) (ridMM value) →
      parseResidentId value ref =
        (if (ref.year - (century + ridYY value)) * 12 + (ref.month - ridMM value) -
              (if ref.day < ridDD value then 1 else 0) < 0 then
          none
        else
          some ⟨⟨century + ridYY value, ridMM value, ridDD value⟩,
            (ref.year - (century + ridYY value)) * 12 + (ref.month - ridMM value) -
              (if ref.day < ridDD value then 1 else 0)⟩) := by
    intro value ref century hlen hcent hmm1 hmm2 hdd1 hdd2 hdim
    unfold ridGender at hcent
    simp only [ridYY, ridMM, ridDD] at hmm1 hmm2 hdd1 hdd2 hdim ⊢
    have hbd : mkBirthDate
        (century + (digitsVal ((normalizeResidentId value).take 2) : Int))
        (digitsVal (((normalizeResidentId value).drop 2).take 2))
        (digitsVal (((normalizeResidentId value).drop 4).take 2)) =
        ⟨century + (digitsVal ((normalizeResidentId value).take 2) : Int),
          (digitsVal (((normalizeResidentId value).drop 2).take 2) : Int),
          (digitsVal (((normalizeResidentId value).drop 4).take 2) : Int)⟩ := by
      unfold mkBirthDate
      rw [if_pos hdim]
    simp only [parseResidentId]
    rw [if_neg (fun hne => hne hlen), hcent]
    dsimp only
    rw [if_neg (by omega), hbd]
    rw [if_neg (by simp)]
    unfold getAgeMonths
    dsimp only
    split_ifs <;> first | rfl | (exfalso; omega) | (norm_num)
  refine ⟨main, ?_⟩
  intro rest hdig hlen6
  have hnorm : normalizeResidentId
      (String.mk ('9' :: '9' :: '0' :: '1' :: '0' :: '1' :: '1' :: rest)) =
      '9' :: '9' :: '0' :: '1' :: '0' :: '1' :: '1' :: rest := by
    unfold normalizeResidentId
    rw [List.filter_eq_self]
    intro a ha
    simp only [List.mem_cons] at ha
    rcases ha with rfl | rfl | rfl | rfl | rfl | rfl | rfl | ha
    · decide
    · decide
    · decide
    · decide
    · decide
    · decide
    · decide
    · exact hdig a ha
  have hYY : ridYY (String.mk ('9' :: '9' :: '0' :: '1' :: '0' :: '1' :: '1' :: rest)) = 99 := by
    unfold ridYY
    rw [hnorm]
    rfl
  have hMM : ridMM (String.mk ('9' :: '9' :: '0' :: '1' :: '0' :: '1' :: '1' :: rest)) = 1 := by
    unfold ridMM
    rw [hnorm]
    rfl
  have hDD : ridDD (String.mk ('9' :: '9' :: '0' :: '1' :: '0' :: '1' :: '1' :: rest)) = 1 := by
    unfold ridDD
    rw [hnorm]
    rfl
  have hG : ridGender (String.mk ('9' :: '9' :: '0' :: '1' :: '0' :: '1' :: '1' :: rest)) = '1' := by
    unfold ridGender
    rw [hnorm]
    rfl
  rw [main (String.mk ('9' :: '9' :: '0' :: '1' :: '0' :: '1' :: '1' :: rest))
      ⟨2024, 6, 15⟩ 1900
      (by rw [hnorm]; simp [hlen6])
      (by rw [hG]; decide)
      (by rw [hMM])
      (by rw [hMM]; decide)
      (by rw [hDD])
      (by rw [hDD]; decide)
      (by rw [hDD, hYY, hMM]; decide)]
  rw [hYY, hMM, hDD]
  decide

/-- C4: when no effective column header equals the sex marker, or none
contains the age-in-months marker, the growth-table parser returns the
empty table (it is a total function, so it cannot throw), and parsing
the same text twice yields structurally equal results. -/
theorem parseGrowthCsv_missing_columns :
    ∀ content : String,
      (((∀ name ∈ effectiveColumns content, name ≠ "성별") ∨
          (∀ name ∈ effectiveColumns content, containsSubstr name "만나이(개월" = false)) →
        parseGrowthCsv content = ⟨[], []⟩) ∧
      parseGrowthCsv content = parseGrowthCsv content := by
  intro content
  refine ⟨?_, rfl⟩
  intro h
  simp only [parseGrowthCsv]
  split
  · rfl
  · rcases h with h | h
    · have hsex : (effectiveColumns content).findIdx?
          (fun name => name = "성별") = none := by
        rw [List.findIdx?_eq_none_iff]
        intro x hx
        exact decide_eq_false (h x hx)
      cases hmon : (effectiveColumns content).findIdx?
          (fun name => containsSubstr name "만나이(개월") with
      | none => rw [hsex]
      | some j => rw [hsex]
    · have hmon : (effectiveColumns content).findIdx?
          (fun name => containsSubstr name "만나이(개월") = none := by
        rw [List.findIdx?_eq_none_iff]
        intro x hx
        exact h x hx
      cases hsex : (effectiveColumns content).findIdx?
          (fun name => name = "성별") with
      | none => rw [hmon]
      | some i => rw [hmon]

/-- Witness for C4: a text with neither marker parses to the empty
table. -/
theorem parseGrowthCsv_missing_columns_witness :
    parseGrowthCsv "a,b\nc,d\ne,f" = ⟨[], []⟩ :=
  (parseGrowthCsv_missing_columns "a,b\nc,d\ne,f").1 (Or.inl (by decide))

/-- Witness for C1: the masked example identifier with concrete filler
digits parses to 305 months at 2024-06-15. -/
theorem parseResidentId_age_formula_witness :
    parseResidentId
        (String.mk ('9' :: '9' :: '0' :: '1' :: '0' :: '1' :: '1' ::
          ['2', '3', '4', '5', '6', '7']))
        ⟨2024, 6, 15⟩ =
      some ⟨⟨1999, 1, 1⟩, 305⟩ :=
  parseResidentId_age_formula.2 ['2', '3', '4', '5', '6', '7'] (by decide) rfl

/-- Reading a key after a JS-object write: the written key returns the
new value, every other key is unchanged. -/
theorem recGet_recSet {α : Type} (k k2 : String) (v : α) (m : List (String × α)) :
    recGet k (recSet k2 v m) = if k2 = k then some v else recGet k m := by
  induction m with
  | nil => simp [recSet, recGet]
  | cons hd tl ih =>
    obtain ⟨hk, hv⟩ := hd
    simp only [recSet]
    by_cases h1 : hk = k2
    · rw [if_pos h1]
      subst h1
      simp only [recGet]
      by_cases hc : hk = k <;> simp [hc]
    · rw [if_neg h1]
      simp only [recGet]
      rw [ih]
      by_cases hc2 : hk = k <;> by_cases hc3 : k2 = k <;> simp_all

/-- Reading a key after an array push: the pushed key's array gains the
element at the end, every other key is unchanged. -/
theorem recGet_recPush (k q : String) (x : JNum) (m : List (String × List JNum)) :
    recGet k (recPush q x m) =
      if q = k then (recGet k m).map (fun a => a ++ [x]) else recGet k m := by
  induction m with
  | nil => simp [recPush, recGet]
  | cons hd tl ih =>
    obtain ⟨hk, hv⟩ := hd
    simp only [recPush]
    by_cases h1 : hk = q
    · rw [if_pos h1]
      subst h1
      simp only [recGet]
      by_cases hc : hk = k <;> simp [hc]
    · rw [if_neg h1]
      simp only [recGet]
      rw [ih]
      by_cases hc2 : hk = k <;> by_cases hc3 : q = k <;> simp_all

/-- Folding empty-array writes for a column list: every listed column
name reads back an empty array, other keys are untouched. -/
theorem recGet_foldSetNil (pcols : List (String × Nat)) (m : List (String × List JNum))
    (name : String) :
    recGet name (pcols.foldl (fun acc c => recSet c.1 ([] : List JNum) acc) m) =
      if name ∈ pcols.map (fun c => c.1) then some [] else recGet name m := by
  induction pcols generalizing m with
  | nil => simp
  | cons c rest ih =>
    simp only [List.foldl_cons, List.map_cons, List.mem_cons]
    rw [ih, recGet_recSet]
    by_cases h1 : name ∈ rest.map (fun c => c.1)
    · simp [h1]
    · by_cases h2 : c.1 = name
      · simp [h1, h2]
      · have h3 : ¬name = c.1 := fun hh => h2 hh.symm
        simp [h1, h2, h3]

/-- `Object.fromEntries` over the percentile columns: listed names map
to empty arrays, others are absent. -/
theorem recGet_fromEntriesEmpty (pcols : List (String × Nat)) (name : String) :
    recGet name (fromEntriesEmpty pcols) =
      if name ∈ pcols.map (fun c => c.1) then some [] else none := by
  unfold fromEntriesEmpty
  rw [recGet_foldSetNil]
  simp [recGet]

/-- Folding one push per column over a duplicate-free column list grows
each listed name's array by exactly one element. -/
theorem recGet_foldPush (f : String × Nat → JNum) (pcols : List (String × Nat)) :
    ∀ (m : List (String × List JNum)),
      (pcols.map (fun c => c.1)).Nodup →
      ∀ (name : String) (arr : List JNum), recGet name m = some arr →
        ∃ arr2,
          recGet name (pcols.foldl (fun acc col => recPush col.1 (f col) acc) m) =
              some arr2 ∧
            arr2.length = arr.length +
              (if name ∈ pcols.map (fun c => c.1) then 1 else 0) := by
  induction pcols with
  | nil =>
    intro m _ name arr h
    exact ⟨arr, h, by simp⟩
  | cons col rest ih =>
    intro m hnodup name arr h
    simp only [List.map_cons, List.nodup_cons] at hnodup
    obtain ⟨hnotin, hnodup2⟩ := hnodup
    simp only [List.foldl_cons]
    by_cases hc : col.1 = name
    · have h2 : recGet name (recPush col.1 (f col) m) = some (arr ++ [f col]) := by
        rw [recGet_recPush, if_pos hc, h]
        rfl
      obtain ⟨arr2, hget, hlen⟩ := ih (recPush col.1 (f col) m) hnodup2 name _ h2
      refine ⟨arr2, hget, ?_⟩
      have hnmem : name ∉ rest.map (fun c => c.1) := hc ▸ hnotin
      have hmem : name ∈ List.map (fun c => c.1) (col :: rest) := by
        simp only [List.map_cons, List.mem_cons]
        exact Or.inl hc.symm
      rw [hlen, if_neg hnmem, if_pos hmem, List.length_append]
      simp
    · have h2 : recGet name (recPush col.1 (f col) m) = some arr := by
        rw [recGet_recPush, if_neg hc]
        exact h
      obtain ⟨arr2, hget, hlen⟩ := ih _ hnodup2 name arr h2
      refine ⟨arr2, hget, ?_⟩
      rw [hlen]
      have hiff : name ∈ List.map (fun c => c.1) (col :: rest) ↔
          name ∈ List.map (fun c => c.1) rest := by
        simp only [List.map_cons, List.mem_cons]
        constructor
        · rintro (hh | hh)
          · exact absurd hh.symm hc
          · exact hh
        · exact Or.inr
      by_cases hm : name ∈ rest.map (fun c => c.1)
      · rw [if_pos hm, if_pos (hiff.mpr hm)]
      · rw [if_neg hm, if_neg (fun hh => hm (hiff.mp hh))]

/-- The parallel-arrays invariant C5 asserts of one sex's curve: every
listed percentile label stores an array exactly as long as the age
array. -/
def curveInv (labels : List String) (cur : GrowthCurve) : Prop :=
  ∀ name ∈ labels, (recGet name cur.percentiles).map List.length = some cur.ages.length

/-- One `parseGrowthCsv` data row preserves the parallel-arrays
invariant for every stored sex, provided the percentile column names
are duplicate-free. -/
theorem processRow_inv (sexIndex monthIndex : Nat) (pcols : List (String × Nat))
    (hnodup : (pcols.map (fun c => c.1)).Nodup)
    (bySex : List (String × GrowthCurve)) (line : String)
    (hinv : ∀ k cur, recGet k bySex = some cur → curveInv (pcols.map (fun c => c.1)) cur) :
    ∀ k cur, recGet k (processRow sexIndex monthIndex pcols bySex line) = some cur →
      curveInv (pcols.map (fun c => c.1)) cur := by
  intro k cur h
  simp only [processRow] at h
  split at h
  · rename_i sexValue monthValue heq1 heq2
    rw [recGet_recSet] at h
    split at h
    case isFalse => exact hinv k cur h
    case isTrue =>
      rw [Option.some.injEq] at h
      subst h
      have hentry : curveInv (pcols.map (fun c => c.1))
          ((recGet (toString sexValue) bySex).getD ⟨[], fromEntriesEmpty pcols⟩) := by
        cases hg : recGet (toString sexValue) bySex with
        | none =>
          intro name hname
          simp only [Option.getD_some, Option.getD_none]
          rw [recGet_fromEntriesEmpty, if_pos hname]
          rfl
        | some e =>
          simpa using hinv _ e hg
      intro name hname
      have hsome : ∃ arr, recGet name
          ((recGet (toString sexValue) bySex).getD
            ⟨[], fromEntriesEmpty pcols⟩).percentiles = some arr ∧
          arr.length =
            ((recGet (toString sexValue) bySex).getD
              ⟨[], fromEntriesEmpty pcols⟩).ages.length := by
        have := hentry name hname
        cases hr : recGet name
            ((recGet (toString sexValue) bySex).getD
              ⟨[], fromEntriesEmpty pcols⟩).percentiles with
        | none => rw [hr] at this; exact Option.noConfusion this
        | some arr =>
          rw [hr] at this
          exact ⟨arr, rfl, Option.some.inj this⟩
      obtain ⟨arr, harr, hlen⟩ := hsome
      obtain ⟨arr2, hget2, hlen2⟩ :=
        recGet_foldPush (fun col => jsParseFloat (cellAt (parseCsvLine line) col.2))
          pcols _ hnodup name arr harr
      simp only [hget2, Option.map_some']
      rw [hlen2, hlen, if_pos hname]
      simp [List.length_append]
  · exact hinv k cur h

/-- The whole data-row fold preserves the parallel-arrays invariant. -/
theorem foldl_processRow_inv (sexIndex monthIndex : Nat) (pcols : List (String × Nat))
    (hnodup : (pcols.map (fun c => c.1)).Nodup) (lines : List String) :
    ∀ bySex : List (String × GrowthCurve),
      (∀ k cur, recGet k bySex = some cur → curveInv (pcols.map (fun c => c.1)) cur) →
      ∀ k cur,
        recGet k (lines.foldl (processRow sexIndex monthIndex pcols) bySex) = some cur →
        curveInv (pcols.map (fun c => c.1)) cur := by
  induction lines with
  | nil => intro bySex hinv; exact hinv
  | cons l rest ih =>
    intro bySex hinv
    simp only [List.foldl_cons]
    exact ih _ (processRow_inv sexIndex monthIndex pcols hnodup bySex l hinv)

/-- C5 (amended): when the percentile labels of the parsed table are
pairwise distinct, every label's value array under every sex has
exactly the length of that sex's age array. -/
theorem parseGrowthCsv_parallel_arrays :
    ∀ content : String, (parseGrowthCsv content).percentiles.Nodup →
      ∀ (k : String) (cur : GrowthCurve),
        recGet k (parseGrowthCsv content).bySex = some cur →
        ∀ label ∈ (parseGrowthCsv content).percentiles,
          (recGet label cur.percentiles).map List.length = some cur.ages.length := by
  intro content
  simp only [parseGrowthCsv]
  split
  · intro _ k cur h
    exact absurd h (by simp [recGet])
  · cases hs : (effectiveColumns content).findIdx? (fun name => name = "성별") with
    | none =>
      intro _ k cur h
      exact absurd h (by simp [recGet])
    | some sexIndex =>
      cases hm : (effectiveColumns content).findIdx?
          (fun name => containsSubstr name "만나이(개월") with
      | none =>
        intro _ k cur h
        exact absurd h (by simp [recGet])
      | some monthIndex =>
        intro hnodup k cur h label hlabel
        exact foldl_processRow_inv sexIndex monthIndex _ hnodup _ []
          (fun k0 cur0 hc => absurd hc (by simp [recGet])) k cur h label hlabel

/-- C5 counterexample: a table with a duplicated percentile header
"3rd" pushes two cells per row into one shared array, so that label's
array has twice the age count — the unqualified claim fails. -/
theorem parseGrowthCsv_parallel_cex :
    recGet "1" (parseGrowthCsv "성별,만나이(개월),3rd,3rd\n,,,\n1,0,x,y").bySex =
        some ⟨[0], [("3rd", [none, none])]⟩ ∧
      "3rd" ∈ (parseGrowthCsv "성별,만나이(개월),3rd,3rd\n,,,\n1,0,x,y").percentiles ∧
      ¬((recGet "3rd"
              (⟨[0], [("3rd", [none, none])]⟩ : GrowthCurve).percentiles).map
            List.length =
          some (⟨[0], [("3rd", [none, none])]⟩ : GrowthCurve).ages.length) :=
  ⟨by decide, by decide, by decide⟩

/-- Witness for the amended C5 at a concrete single-column table. -/
theorem parseGrowthCsv_parallel_arrays_witness :
    (recGet "3rd" (⟨[0], [("3rd", [none])]⟩ : GrowthCurve).percentiles).map
        List.length =
      some (⟨[0], [("3rd", [none])]⟩ : GrowthCurve).ages.length :=
  parseGrowthCsv_parallel_arrays "성별,만나이(개월),3rd\n,,\n1,0,x" (by decide) "1"
    ⟨[0], [("3rd", [none])]⟩ (by decide) "3rd" (by decide)

end GrowthChart
